import Mathlib

/-!
# Verification of the terraform-provider-pureport repository

A shallow embedding of the provider code (the Pureport provider under
`pureport/`, and the vendored AzureRM provider files under `vendor/.../azurerm/`)
together with theorems settling the specification claims.

Remote calls (the Azure SDK clients, the Pureport SDK session) are modelled as
oracle values supplied in an environment structure: the theorems quantify over
all possible remote behaviours.  Terraform `schema.ResourceData` is modelled as
an explicit state record; `d.Set`/`d.SetId` are pure state updates.
-/

namespace Spec2Proof

/-! ## Azure resource IDs

`parseAzureResourceID` and `sliceContainsValue` live in helper files of the
vendored azurerm provider that are not part of the sources here; they are
modelled below from the spec and their call sites. -/

/-- An Azure resource ID after parsing: the resource-group component and the
key/value path segments.  `Path` lookup mirrors the Go map access, which
yields the zero value `""` for a missing key. -/
structure ResourceID where
  resourceGroup : String
  path : List (String × String)
deriving DecidableEq, Repr

/-- Go map access `id.Path[k]`: the zero value `""` when the key is absent. -/
def ResourceID.pathGet (r : ResourceID) (k : String) : String :=
  match r.path.find? (fun p => p.1 == k) with
  | some p => p.2
  | none => ""

/-- Pair up successive path components: `k₁/v₁/k₂/v₂/…` becomes
`[(k₁,v₁),(k₂,v₂),…]`. -/
def pathPairs : List String → List (String × String)
  | k :: v :: rest => (k, v) :: pathPairs rest
  | _ => []

/-- Split a character list on `/`, accumulating the current component in
reverse. -/
def splitSlashAux : List Char → List Char → List String
  | [], acc => [String.mk acc.reverse]
  | c :: rest, acc =>
    if c = '/' then String.mk acc.reverse :: splitSlashAux rest []
    else splitSlashAux rest (c :: acc)

/-- Split a string on the `/` separator. -/
def splitSlash (s : String) : List String :=
  splitSlashAux s.data []

/-- Modelled from the spec: `parseAzureResourceID` (defined in azurerm helper
files that are not among the sources) splits an Azure resource ID such as
`/subscriptions/<id>/resourceGroups/<rg>/providers/…` on `/` into successive
key/value segment pairs, failing when the segments do not pair up or when the
resource-group component is missing. -/
def parseAzureResourceID (s : String) : Except String ResourceID :=
  let comps := (splitSlash s).filter (fun c => c ≠ "")
  if comps.length % 2 ≠ 0 then
    .error ("The number of path segments is not divisible by 2 in " ++ s)
  else
    let pairs := pathPairs comps
    match pairs.find? (fun p => p.1 == "resourceGroups") with
    | none => .error ("Cannot find resource group in URI " ++ s)
    | some rg => .ok ⟨rg.2, pairs⟩

/-- Modelled from its call sites: `sliceContainsValue` (azurerm helper not
among the sources) reports whether a string slice contains a value. -/
def sliceContainsValue (input : List String) (value : String) : Bool :=
  input.any (fun v => v == value)

/-! ## `extractVnetNames`
(`resource_arm_ddos_protection_plan.go`, lines 206–224) -/

/-- The loop body of `extractVnetNames`: fold over the virtual-network IDs,
appending each extracted name unless it is already present. -/
def extractVnetNamesLoop : List String → List String → Except String (List String)
  | [], vnetNames => .ok vnetNames
  | vnetID :: rest, vnetNames =>
    match parseAzureResourceID vnetID with
    | .error e => .error e
    | .ok vnetResourceID =>
      let vnetName := vnetResourceID.pathGet "virtualNetworks"
      if sliceContainsValue vnetNames vnetName then
        extractVnetNamesLoop rest vnetNames
      else
        extractVnetNamesLoop rest (vnetNames ++ [vnetName])

/-- `extractVnetNames`: parse every ID in `virtual_network_ids`, collecting the
`virtualNetworks` path component of each, skipping duplicates. -/
def extractVnetNames (vnetIDs : List String) : Except String (List String) :=
  extractVnetNamesLoop vnetIDs []

/-! ## `flattenArmVirtualNetworkIDs`
(`resource_arm_ddos_protection_plan.go`, lines 226–240) -/

/-- `network.SubResource` from the Azure SDK: an optional ID pointer. -/
structure SubResource where
  ID : Option String
deriving DecidableEq, Repr

/-- The loop of `flattenArmVirtualNetworkIDs`: append each non-nil ID. -/
def flattenLoop : List SubResource → List String → List String
  | [], vnetIDs => vnetIDs
  | subRes :: rest, vnetIDs =>
    match subRes.ID with
    | some i => flattenLoop rest (vnetIDs ++ [i])
    | none => flattenLoop rest vnetIDs

/-- `flattenArmVirtualNetworkIDs`: `nil` input yields the empty slice;
otherwise collect the dereferenced non-nil IDs in order. -/
def flattenArmVirtualNetworkIDs (input : Option (List SubResource)) : List String :=
  match input with
  | none => []
  | some l => flattenLoop l []

/-! ## Named resource locks

`azureRMLockByName` / `azureRMUnlockByName` and their `Multiple` variants live
in an azurerm helper file not among the sources.  They are modelled from the
spec ("each resource mutation acquires named locks (by resource name) for
itself and for any other resources it references") as emitters of lock events;
a function's value includes the trace of events it performed, in order. -/

/-- A lock or unlock of the named mutex for `name` under resource kind
`resource`. -/
inductive LockEvent where
  | lock (name resource : String)
  | unlock (name resource : String)
deriving DecidableEq, Repr

/-- Modelled from the spec: acquire the named mutex. -/
def azureRMLockByName (name resource : String) : List LockEvent :=
  [.lock name resource]

/-- Modelled from the spec: release the named mutex. -/
def azureRMUnlockByName (name resource : String) : List LockEvent :=
  [.unlock name resource]

/-- Modelled from the spec: acquire the named mutex of each name in the given
slice, in slice order. -/
def azureRMLockMultipleByName (names : List String) (resource : String) : List LockEvent :=
  names.map (fun n => LockEvent.lock n resource)

/-- Modelled from the spec: release the named mutex of each name in the given
slice, in slice order. -/
def azureRMUnlockMultipleByName (names : List String) (resource : String) : List LockEvent :=
  names.map (fun n => LockEvent.unlock n resource)

/-- The `(name, resource)` pairs acquired in a trace, in order. -/
def acquiredLocks (t : List LockEvent) : List (String × String) :=
  t.filterMap (fun e => match e with | .lock n r => some (n, r) | .unlock _ _ => none)

/-- The `(name, resource)` pairs released in a trace, in order. -/
def releasedLocks (t : List LockEvent) : List (String × String) :=
  t.filterMap (fun e => match e with | .lock _ _ => none | .unlock n r => some (n, r))

/-! ## The DDoS protection plan resource
(`resource_arm_ddos_protection_plan.go`) -/

/-- `azurerm_ddos_protection_plan` (line 14 of the resource file). -/
def azureDDoSProtectionPlanResourceName : String := "azurerm_ddos_protection_plan"

/-- The virtual-network resource name used for vnet locks (defined alongside
the virtual-network resource, not among the sources; the constant's value is
the resource type name, following the pattern of line 14). -/
def virtualNetworkResourceName : String := "azurerm_virtual_network"

/-- `azure.NormalizeLocation`, modelled from the spec: lower-case the location
and strip spaces. -/
def normalizeLocation (location : String) : String :=
  (location.toLower).replace " " ""

/-- The Terraform state of a DDoS protection plan resource
(`schema.ResourceData` restricted to this resource's schema, lines 33–53,
plus the resource ID). -/
structure DdosState where
  id : String
  name : String
  resourceGroup : String
  location : String
  tags : List (String × String)
  virtualNetworkIds : List String
deriving DecidableEq, Repr

/-- The observable outcome of one `ddosProtectionPlanClient.Get` call:
the transport error, whether `utils.ResponseWasNotFound` holds of the
response, and the fields of the returned plan (`ID`, `Name`, `Location` are
pointers; `DdosProtectionPlanPropertiesFormat` is an optional struct whose
`VirtualNetworks` is an optional slice). -/
structure AzGetPlanResult where
  err : Option String
  notFound : Bool
  planID : Option String
  planName : Option String
  planLocation : Option String
  props : Option (Option (List SubResource))
  planTags : List (String × String)

/-- Oracle values for the remote calls made by the DDoS plan CRUD functions. -/
structure DdosEnv where
  requireResourcesToBeImported : Bool
  isNewResource : Bool
  getForImportCheck : AzGetPlanResult
  createOrUpdateErr : Option String
  waitErr : Option String
  getAfterCreate : AzGetPlanResult
  getForRead : AzGetPlanResult
  getForDelete : AzGetPlanResult
  deleteErr : Option String
  deleteWaitErr : Option String

/-- `resourceArmDDoSProtectionPlanRead` (lines 121–159).  `d.Set` on a key
declared in the resource schema with a value of the declared type does not
fail, so the sets are pure state updates.  Setting a nil `*string` stores the
zero value `""`. -/
def resourceArmDDoSProtectionPlanRead (get : AzGetPlanResult) (d : DdosState) :
    DdosState × Option String :=
  match parseAzureResourceID d.id with
  | .error e => (d, some e)
  | .ok rid =>
    let resourceGroup := rid.resourceGroup
    let name := rid.pathGet "ddosProtectionPlans"
    let plan := get
    if plan.err.isSome then
      if plan.notFound then
        ({ d with id := "" }, none)
      else
        (d, some ("Error making Read request on DDoS Protection Plan " ++ name
          ++ " (Resource Group " ++ resourceGroup ++ ")"))
    else
      let d := { d with name := plan.planName.getD "", resourceGroup := resourceGroup }
      let d :=
        match plan.planLocation with
        | some location => { d with location := normalizeLocation location }
        | none => d
      let d :=
        match plan.props with
        | some props => { d with virtualNetworkIds := flattenArmVirtualNetworkIDs props }
        | none => d
      let d := { d with tags := plan.planTags }
      (d, none)

/-- The acquisition sequence of a DDoS plan mutation (lines 87/90 resp.
188/191): the plan's own name under the DDoS resource name, then each vnet
name under the virtual-network resource name. -/
def ddosAcquireSeq (name : String) (vnetsToLock : List String) : List LockEvent :=
  azureRMLockByName name azureDDoSProtectionPlanResourceName
    ++ azureRMLockMultipleByName vnetsToLock virtualNetworkResourceName

/-- The release sequence run by the deferred unlocks, in LIFO defer order:
the vnet names first (the later defer), then the plan's own name. -/
def ddosReleaseSeq (name : String) (vnetsToLock : List String) : List LockEvent :=
  azureRMUnlockMultipleByName vnetsToLock virtualNetworkResourceName
    ++ azureRMUnlockByName name azureDDoSProtectionPlanResourceName

/-- The body of `resourceArmDDoSProtectionPlanCreateUpdate` from line 79 on
(after the import-as-exists check).  The returned trace is the sequence of
lock events performed before the function returns, the deferred unlocks
included on every exit path past the acquisitions. -/
def ddosCreateUpdateBody (env : DdosEnv) (d : DdosState) :
    DdosState × Option String × List LockEvent :=
  let name := d.name
  let resourceGroup := d.resourceGroup
  match extractVnetNames d.virtualNetworkIds with
  | .error _ => (d, some "Error extracting names of Virtual Network", [])
  | .ok vnetsToLock =>
    let trace := ddosAcquireSeq name vnetsToLock ++ ddosReleaseSeq name vnetsToLock
    if env.createOrUpdateErr.isSome then
      (d, some ("Error creating/updating DDoS Protection Plan " ++ name
        ++ " (Resource Group " ++ resourceGroup ++ ")"), trace)
    else if env.waitErr.isSome then
      (d, some ("Error waiting for creation/update of DDoS Protection Plan " ++ name
        ++ " (Resource Group " ++ resourceGroup ++ ")"), trace)
    else
      let plan := env.getAfterCreate
      if plan.err.isSome then
        (d, some ("Error retrieving DDoS Protection Plan " ++ name
          ++ " (Resource Group " ++ resourceGroup ++ ")"), trace)
      else
        match plan.planID with
        | none =>
          (d, some ("Cannot read DDoS Protection Plan " ++ name
            ++ " (Resource Group " ++ resourceGroup ++ ") ID"), trace)
        | some planID =>
          let d := { d with id := planID }
          let (d, res) := resourceArmDDoSProtectionPlanRead env.getForRead d
          (d, res, trace)

/-- `resourceArmDDoSProtectionPlanCreateUpdate` (lines 57–119). -/
def resourceArmDDoSProtectionPlanCreateUpdate (env : DdosEnv) (d : DdosState) :
    DdosState × Option String × List LockEvent :=
  if env.requireResourcesToBeImported && env.isNewResource then
    let existing := env.getForImportCheck
    if existing.err.isSome && !existing.notFound then
      (d, some ("Error checking for presence of existing DDoS Protection Plan "
        ++ d.name ++ " (Resource Group " ++ d.resourceGroup ++ ")"), [])
    else if existing.planID.getD "" ≠ "" then
      (d, some ("ImportAsExistsError azurerm_ddos_protection_plan "
        ++ existing.planID.getD ""), [])
    else
      ddosCreateUpdateBody env d
  else
    ddosCreateUpdateBody env d

/-- `resourceArmDDoSProtectionPlanDelete` (lines 161–204). -/
def resourceArmDDoSProtectionPlanDelete (env : DdosEnv) (d : DdosState) :
    DdosState × Option String × List LockEvent :=
  match parseAzureResourceID d.id with
  | .error e => (d, some e, [])
  | .ok rid =>
    let resourceGroup := rid.resourceGroup
    let name := rid.pathGet "ddosProtectionPlans"
    let read := env.getForDelete
    if read.err.isSome then
      if read.notFound then
        (d, none, [])
      else
        (d, some ("Error retrieving DDoS Protection Plan " ++ name
          ++ " (Resource Group " ++ resourceGroup ++ ")"), [])
    else
      match extractVnetNames d.virtualNetworkIds with
      | .error _ => (d, some "Error extracting names of Virtual Network", [])
      | .ok vnetsToLock =>
        let trace := ddosAcquireSeq name vnetsToLock ++ ddosReleaseSeq name vnetsToLock
        if env.deleteErr.isSome then
          (d, some ("Error deleting DDoS Protection Plan " ++ name
            ++ " (Resource Group " ++ resourceGroup ++ ")"), trace)
        else if env.deleteWaitErr.isSome then
          (d, some ("Error waiting for the deletion of DDoS Protection Plan " ++ name
            ++ " (Resource Group " ++ resourceGroup ++ ")"), trace)
        else
          (d, none, trace)

/-! ## The storage-key cache (`config.go`, lines 1246–1294) -/

/-- The observable outcome of one `storageServiceClient.ListKeys` call: the
transport error, whether `utils.ResponseWasNotFound` holds of the response,
and the `Keys` field (`*[]storage.AccountKey`, each key's `Value` a
`*string`). -/
structure ListKeysResult where
  err : Option String
  notFound : Bool
  keys : Option (List (Option String))

/-- `storageKeyCache`: a map from `resourceGroupName + "/" + storageAccountName`
to the account's access key, modelled as an association list (newest entry
first). -/
abbrev StorageKeyCache := List (String × String)

/-- Map lookup in the cache (`storageKeyCache[cacheIndex]`). -/
def cacheFind (cache : StorageKeyCache) (cacheIndex : String) : Option String :=
  match List.find? (fun p => p.1 == cacheIndex) cache with
  | some p => some p.2
  | none => none

/-- The full outcome of one `getKeyForStorageAccount` call: the cache after
the call, whether the remote `ListKeys` operation was invoked, and the
function's three return values `(key, accountExists, err)`. -/
structure StorageKeyOutcome where
  cache : StorageKeyCache
  calledListKeys : Bool
  key : String
  accountExists : Bool
  err : Option String

/-- `getKeyForStorageAccount` (lines 1251–1294).  The double-checked lookup
(once under the read lock, once again under the write lock) is kept; in this
sequential model the second lookup sees the same cache.  `listKeys` is the
oracle result of the remote call, consulted only if the code reaches it. -/
def getKeyForStorageAccount (listKeys : ListKeysResult) (cache : StorageKeyCache)
    (resourceGroupName storageAccountName : String) : StorageKeyOutcome :=
  let cacheIndex := resourceGroupName ++ "/" ++ storageAccountName
  match cacheFind cache cacheIndex with
  | some key => ⟨cache, false, key, true, none⟩
  | none =>
    match cacheFind cache cacheIndex with
    | some key => ⟨cache, false, key, true, none⟩
    | none =>
      let accountKeys := listKeys
      if accountKeys.notFound then
        ⟨cache, true, "", false, none⟩
      else if accountKeys.err.isSome then
        ⟨cache, true, "", true,
          some ("Error retrieving keys for storage storeAccount " ++ storageAccountName)⟩
      else
        match accountKeys.keys with
        | none =>
          ⟨cache, true, "", false,
            some ("Nil key returned for storage storeAccount " ++ storageAccountName)⟩
        | some keys =>
          match keys with
          | [] =>
            ⟨cache, true, "", false,
              some ("No keys returned for storage storeAccount " ++ storageAccountName)⟩
          | keyPtr :: _ =>
            match keyPtr with
            | none =>
              ⟨cache, true, "", false,
                some ("The first key returned is nil for storage storeAccount "
                  ++ storageAccountName)⟩
            | some key =>
              ⟨(cacheIndex, key) :: cache, true, key, true, none⟩

/-- Run a sequence of `getKeyForStorageAccount` calls, each with its own
oracle `ListKeys` result and account identity, threading the cache. -/
def runStorageKeyCalls (cache : StorageKeyCache) :
    List (ListKeysResult × String × String) → StorageKeyCache
  | [] => cache
  | (lk, rg, sa) :: rest =>
    runStorageKeyCalls (getKeyForStorageAccount lk cache rg sa).cache rest

/-! ## The Pureport provider (`provider.go`) -/

/-- The provider-level configuration fields declared in the Pureport provider
schema (`Provider`, lines 28–80). -/
structure PureportProviderConfig where
  access_key : String
  secret_key : String
  profile : String
  token : String
  max_retries : Int
deriving DecidableEq, Repr

/-- `pureport.Configuration` as observable through `providerConfigure`: the
API key it was constructed with and its endpoint. -/
structure Configuration where
  apiKey : String
  endPoint : String
deriving DecidableEq, Repr

/-- `pureport.NewConfiguration(key)`. -/
def NewConfiguration (key : String) : Configuration :=
  { apiKey := key, endPoint := "" }

/-- `cfg.WithEndPoint(e)`. -/
def Configuration.WithEndPoint (cfg : Configuration) (e : String) : Configuration :=
  { cfg with endPoint := e }

/-- `session.Session` as observable through `providerConfigure`: the
configuration the session was built from. -/
structure Session where
  cfg : Configuration
deriving DecidableEq, Repr

/-- `session.NewSession(cfg)`. -/
def NewSession (cfg : Configuration) : Session :=
  { cfg := cfg }

/-- `providerConfigure` (lines 82–93 of the provider file): builds a fixed
configuration with a hard-coded endpoint, sets up logging, and returns a new
session and a nil error.  The `d *schema.ResourceData` argument carries the
user's provider configuration. -/
def providerConfigure (_ : PureportProviderConfig) : Session × Option String :=
  let cfg := NewConfiguration ""
  let cfg := cfg.WithEndPoint "https://dev1-api.pureportdev.com"
  let s := NewSession cfg
  (s, none)

/-! ## Pureport connection creation (`resource_azure_connection.go`,
`resource_dummy_connection.go`) -/

/-- `swagger.Link`. -/
structure Link where
  Id : String
  Href : String
deriving DecidableEq, Repr

/-- `swagger.CustomerNetwork`. -/
structure CustomerNetwork where
  Name : String
  Address : String
deriving DecidableEq, Repr

/-- `swagger.PeeringConfiguration` as used by the connection resources. -/
structure PeeringConfiguration where
  Type_ : String
deriving DecidableEq, Repr

/-- `swagger.NatConfig` as used by the connection resources (its fields are
irrelevant to the claims; it is carried opaquely). -/
structure NatConfig where
  Enabled : Bool
deriving DecidableEq, Repr

/-- `swagger.AzureExpressRouteConnection`: the request body built by
`resourceAzureConnectionCreate` (lines 63–92). -/
structure AzureExpressRouteConnection where
  Type_ : String
  Name : String
  Speed : Int
  Location : Link
  Network : Link
  BillingTerm : String
  ServiceKey : String
  CustomerNetworks : List CustomerNetwork
  Nat : Option NatConfig
  Description : String
  HighAvailability : Bool
  Peering : Option PeeringConfiguration
deriving DecidableEq, Repr

/-- `swagger.DummyConnection`: the request body built by
`resourceDummyConnectionCreate` (lines 253–279 of its file). -/
structure DummyConnection where
  Type_ : String
  Name : String
  Speed : Int
  Location : Link
  Network : Link
  BillingTerm : String
  CustomerNetworks : List CustomerNetwork
  Nat : Option NatConfig
  Description : String
  HighAvailability : Bool
  Peering : Option PeeringConfiguration
deriving DecidableEq, Repr

/-- The Terraform state of a Pureport connection resource: the base
connection fields read by the create functions, plus the resource ID. -/
structure ConnState where
  id : String
  network : Link
  speed : Int
  name : String
  location : Link
  billingTerm : String
  serviceKey : String
  description : Option String
  highAvailability : Option Bool
deriving DecidableEq, Repr

/-- The observable outcome of one `ConnectionsApi.AddConnection` call: the
transport error, the response status code, and the `location` response
header. -/
structure AddConnResp where
  err : Option String
  statusCode : Nat
  locationHeader : String

/-- Oracle values for the remote calls and helper results of a connection
create.  `AddCustomerNetworks`, `AddNATConfiguration` and `AddPeeringType`
are pureport helper functions not among the sources; their results are
oracle values.  `read` is the subsequent `resource…ConnectionRead` call. -/
structure ConnCreateEnv where
  customerNetworks : List CustomerNetwork
  natConfig : Option NatConfig
  peering : Option PeeringConfiguration
  addConnection : AddConnResp
  urlParseErr : Option String
  parsedPath : String
  read : ConnState → ConnState × Option String

/-- Modelled from the spec: Go `filepath.Base` — the last element of the
path; `"."` for the empty path, `"/"` when the path is all slashes. -/
def filepathBase (p : String) : String :=
  if p = "" then "."
  else
    match ((p.splitOn "/").filter (fun c => c ≠ "")).getLast? with
    | some c => c
    | none => "/"

/-- The `swagger.AzureExpressRouteConnection` body built by
`resourceAzureConnectionCreate` (lines 63–92). -/
def azureConnectionBody (env : ConnCreateEnv) (d : ConnState) : AzureExpressRouteConnection :=
  { Type_ := "AZURE_EXPRESS_ROUTE"
    Name := d.name
    Speed := d.speed
    Location := d.location
    Network := d.network
    BillingTerm := d.billingTerm
    ServiceKey := d.serviceKey
    CustomerNetworks := env.customerNetworks
    Nat := env.natConfig
    Description := d.description.getD ""
    HighAvailability := d.highAvailability.getD false
    Peering := env.peering }

/-- `resourceAzureConnectionCreate` (lines 48–134). -/
def resourceAzureConnectionCreate (env : ConnCreateEnv) (d : ConnState) :
    ConnState × Option String :=
  let _connection := azureConnectionBody env d
  let resp := env.addConnection
  if resp.err.isSome then
    ({ d with id := "" }, none)
  else if resp.statusCode ≥ 300 then
    ({ d with id := "" }, none)
  else if env.urlParseErr.isSome then
    (d, none)
  else
    let id := filepathBase env.parsedPath
    let d := { d with id := id }
    if id = "" then
      (d, none)
    else
      env.read d

/-- The `swagger.DummyConnection` body built by `resourceDummyConnectionCreate`
(lines 253–279). -/
def dummyConnectionBody (env : ConnCreateEnv) (d : ConnState) : DummyConnection :=
  { Type_ := "DUMMY"
    Name := d.name
    Speed := d.speed
    Location := d.location
    Network := d.network
    BillingTerm := d.billingTerm
    CustomerNetworks := env.customerNetworks
    Nat := env.natConfig
    Description := d.description.getD ""
    HighAvailability := d.highAvailability.getD false
    Peering := env.peering }

/-- `resourceDummyConnectionCreate` (lines 241–321 of its file). -/
def resourceDummyConnectionCreate (env : ConnCreateEnv) (d : ConnState) :
    ConnState × Option String :=
  let _connection := dummyConnectionBody env d
  let resp := env.addConnection
  if resp.err.isSome then
    ({ d with id := "" }, none)
  else if resp.statusCode ≥ 300 then
    ({ d with id := "" }, none)
  else if env.urlParseErr.isSome then
    (d, none)
  else
    let id := filepathBase env.parsedPath
    let d := { d with id := id }
    if id = "" then
      (d, none)
    else
      env.read d

/-! ## Theorems -/

/-- The flatten loop appends exactly the non-nil IDs, in order. -/
lemma flattenLoop_eq (l : List SubResource) :
    ∀ acc, flattenLoop l acc = acc ++ l.filterMap SubResource.ID := by
  induction l with
  | nil => intro acc; simp [flattenLoop]
  | cons s rest ih =>
    intro acc
    cases h : s.ID with
    | some i => simp [flattenLoop, h, ih, List.filterMap_cons]
    | none => simp [flattenLoop, h, ih, List.filterMap_cons]

/-- C7: `flattenArmVirtualNetworkIDs` is total on all inputs including a nil
pointer: given nil it returns the empty list, and given any list of
`SubResource` values it returns exactly the dereferenced ID strings of the
elements whose ID pointer is non-nil, in their original order, never
dereferencing a nil pointer. -/
theorem flattenArmVirtualNetworkIDs_total :
    flattenArmVirtualNetworkIDs none = [] ∧
    ∀ l, flattenArmVirtualNetworkIDs (some l) = l.filterMap SubResource.ID := by
  refine ⟨rfl, ?_⟩
  intro l
  simp [flattenArmVirtualNetworkIDs, flattenLoop_eq]

/-- C6 counterexample: no pair of provider configurations — however they
differ in `access_key`, `secret_key`, `profile`, `token` or `max_retries` —
makes `providerConfigure` return observably different sessions: the function
ignores its `ResourceData` argument entirely. -/
theorem providerConfigure_ignores_credentials :
    ¬ ∃ c1 c2 : PureportProviderConfig,
        (c1.access_key ≠ c2.access_key ∨ c1.secret_key ≠ c2.secret_key ∨
          c1.profile ≠ c2.profile ∨ c1.token ≠ c2.token ∨
          c1.max_retries ≠ c2.max_retries) ∧
        providerConfigure c1 ≠ providerConfigure c2 := by
  rintro ⟨c1, c2, -, hne⟩
  exact hne rfl

/-- C6 amended: `providerConfigure` does not plumb the user-supplied
credential settings into the session: it returns, for every provider
configuration, the same session built from a fixed configuration whose
endpoint is the hard-coded `https://dev1-api.pureportdev.com`, and a nil
error. -/
theorem providerConfigure_constant :
    ∀ c1 c2 : PureportProviderConfig,
      providerConfigure c1 = providerConfigure c2 ∧
      (providerConfigure c1).1.cfg.endPoint = "https://dev1-api.pureportdev.com" ∧
      (providerConfigure c1).2 = none := by
  intro c1 c2
  exact ⟨rfl, rfl, rfl⟩

/-- C8: whenever `AddConnection` returns a transport error or a response with
status code ≥ 300, both `resourceAzureConnectionCreate` and
`resourceDummyConnectionCreate` clear the resource ID to the empty string and
return nil: a failed create never yields a non-nil error. -/
theorem connectionCreate_failure_clears_id :
    ∀ (env : ConnCreateEnv) (d : ConnState),
      env.addConnection.err.isSome = true ∨ env.addConnection.statusCode ≥ 300 →
      resourceAzureConnectionCreate env d = ({ d with id := "" }, none) ∧
      resourceDummyConnectionCreate env d = ({ d with id := "" }, none) := by
  intro env d h
  rcases h with h | h
  · constructor <;>
      simp [resourceAzureConnectionCreate, resourceDummyConnectionCreate, h]
  · by_cases he : env.addConnection.err.isSome = true
    · constructor <;>
        simp [resourceAzureConnectionCreate, resourceDummyConnectionCreate, he]
    · constructor <;>
        simp [resourceAzureConnectionCreate, resourceDummyConnectionCreate, he, h]

/-- C8 witness: a concrete failed create (transport error) on both resource
kinds clears the ID and returns nil. -/
theorem connectionCreate_failure_clears_id_witness :
    resourceAzureConnectionCreate
        ⟨[], none, none, ⟨some "transport error", 0, ""⟩, none, "", fun s => (s, none)⟩
        ⟨"old-id", ⟨"n", "nh"⟩, 50, "conn", ⟨"l", "lh"⟩, "MONTHLY", "svc", none, none⟩
      = (⟨"", ⟨"n", "nh"⟩, 50, "conn", ⟨"l", "lh"⟩, "MONTHLY", "svc", none, none⟩, none) ∧
    resourceDummyConnectionCreate
        ⟨[], none, none, ⟨some "transport error", 0, ""⟩, none, "", fun s => (s, none)⟩
        ⟨"old-id", ⟨"n", "nh"⟩, 50, "conn", ⟨"l", "lh"⟩, "MONTHLY", "svc", none, none⟩
      = (⟨"", ⟨"n", "nh"⟩, 50, "conn", ⟨"l", "lh"⟩, "MONTHLY", "svc", none, none⟩, none) :=
  connectionCreate_failure_clears_id
    ⟨[], none, none, ⟨some "transport error", 0, ""⟩, none, "", fun s => (s, none)⟩
    ⟨"old-id", ⟨"n", "nh"⟩, 50, "conn", ⟨"l", "lh"⟩, "MONTHLY", "svc", none, none⟩
    (Or.inl rfl)

/-- C3: `getKeyForStorageAccount` is a read-through cache: a hit returns the
cached key with `accountExists = true` and a nil error without calling
`ListKeys`; only a miss calls `ListKeys` and, on success, stores the first
returned key under the `(resourceGroupName, storageAccountName)` pair and
returns it. -/
theorem getKeyForStorageAccount_read_through :
    ∀ (lk : ListKeysResult) (cache : StorageKeyCache) (rg sa : String),
      (∀ key, cacheFind cache (rg ++ "/" ++ sa) = some key →
        getKeyForStorageAccount lk cache rg sa = ⟨cache, false, key, true, none⟩) ∧
      (cacheFind cache (rg ++ "/" ++ sa) = none →
        (getKeyForStorageAccount lk cache rg sa).calledListKeys = true) ∧
      (∀ key rest, cacheFind cache (rg ++ "/" ++ sa) = none →
        lk.notFound = false → lk.err = none → lk.keys = some (some key :: rest) →
        getKeyForStorageAccount lk cache rg sa =
          ⟨(rg ++ "/" ++ sa, key) :: cache, true, key, true, none⟩) := by
  intro lk cache rg sa
  refine ⟨?_, ?_, ?_⟩
  · intro key h
    simp [getKeyForStorageAccount, h]
  · intro h
    simp only [getKeyForStorageAccount, h]
    repeat' split
    all_goals rfl
  · intro key rest h hnf herr hkeys
    simp [getKeyForStorageAccount, h, hnf, herr, hkeys]

/-- C3 witness: with one cached entry, a call for that account returns the
cached key without calling `ListKeys` and leaves the cache unchanged. -/
theorem getKeyForStorageAccount_read_through_witness :
    getKeyForStorageAccount ⟨none, false, none⟩ [("rg/acct", "key1")] "rg" "acct"
      = ⟨[("rg/acct", "key1")], false, "key1", true, none⟩ :=
  (getKeyForStorageAccount_read_through ⟨none, false, none⟩
    [("rg/acct", "key1")] "rg" "acct").1 "key1" (by decide)

/-- Case split on one `getKeyForStorageAccount` call: either the cache is
untouched, or the call succeeded and the cache gained exactly the entry for
this account (which was previously absent). -/
lemma getKey_cases (lk : ListKeysResult) (cache : StorageKeyCache) (rg sa : String) :
    (getKeyForStorageAccount lk cache rg sa).cache = cache ∨
    ((getKeyForStorageAccount lk cache rg sa).err = none ∧
      (getKeyForStorageAccount lk cache rg sa).accountExists = true ∧
      (getKeyForStorageAccount lk cache rg sa).cache =
        (rg ++ "/" ++ sa, (getKeyForStorageAccount lk cache rg sa).key) :: cache ∧
      cacheFind cache (rg ++ "/" ++ sa) = none) := by
  cases h : cacheFind cache (rg ++ "/" ++ sa) with
  | some key => left; simp [getKeyForStorageAccount, h]
  | none =>
    cases hnf : lk.notFound with
    | true => left; simp [getKeyForStorageAccount, h, hnf]
    | false =>
      cases herr : lk.err with
      | some e => left; simp [getKeyForStorageAccount, h, hnf, herr]
      | none =>
        cases hk : lk.keys with
        | none => left; simp [getKeyForStorageAccount, h, hnf, herr, hk]
        | some keys =>
          cases keys with
          | nil => left; simp [getKeyForStorageAccount, h, hnf, herr, hk]
          | cons kp rest =>
            cases kp with
            | none => left; simp [getKeyForStorageAccount, h, hnf, herr, hk]
            | some key =>
              right
              refine ⟨?_, ?_, ?_, ?_⟩
              · simp [getKeyForStorageAccount, h, hnf, herr, hk]
              · simp [getKeyForStorageAccount, h, hnf, herr, hk]
              · simp [getKeyForStorageAccount, h, hnf, herr, hk]
              · rfl

/-- C9: `getKeyForStorageAccount` mutates the cache only on full success: a
return with a non-nil error or with `accountExists = false` leaves the cache
exactly as before; on a miss with a not-found response it returns
`("", false, nil)` and caches nothing; and whenever the cache did change, the
call succeeded and the new cache maps this account to the returned key. -/
theorem getKeyForStorageAccount_no_mutation_on_failure :
    ∀ (lk : ListKeysResult) (cache : StorageKeyCache) (rg sa : String),
      ((getKeyForStorageAccount lk cache rg sa).err.isSome = true ∨
          (getKeyForStorageAccount lk cache rg sa).accountExists = false →
        (getKeyForStorageAccount lk cache rg sa).cache = cache) ∧
      (cacheFind cache (rg ++ "/" ++ sa) = none → lk.notFound = true →
        getKeyForStorageAccount lk cache rg sa = ⟨cache, true, "", false, none⟩) ∧
      ((getKeyForStorageAccount lk cache rg sa).cache ≠ cache →
        (getKeyForStorageAccount lk cache rg sa).err = none ∧
        (getKeyForStorageAccount lk cache rg sa).accountExists = true ∧
        cacheFind (getKeyForStorageAccount lk cache rg sa).cache (rg ++ "/" ++ sa)
          = some (getKeyForStorageAccount lk cache rg sa).key) := by
  intro lk cache rg sa
  refine ⟨?_, ?_, ?_⟩
  · intro h
    rcases getKey_cases lk cache rg sa with hc | ⟨he, ha, -, -⟩
    · exact hc
    · rcases h with h | h
      · rw [he] at h; cases h
      · rw [ha] at h; cases h
  · intro h hnf
    simp [getKeyForStorageAccount, h, hnf]
  · intro hne
    rcases getKey_cases lk cache rg sa with hc | ⟨he, ha, hc, -⟩
    · exact absurd hc hne
    · refine ⟨he, ha, ?_⟩
      rw [hc]
      simp [cacheFind, List.find?]

/-- C9 witness: a concrete miss whose `ListKeys` reports not-found returns
`("", false, nil)` and leaves the (empty) cache empty. -/
theorem getKeyForStorageAccount_no_mutation_on_failure_witness :
    getKeyForStorageAccount ⟨none, true, none⟩ [] "rg" "acct" = ⟨[], true, "", false, none⟩ :=
  (getKeyForStorageAccount_no_mutation_on_failure ⟨none, true, none⟩ [] "rg" "acct").2.1
    (by decide) rfl

/-- A single `getKeyForStorageAccount` call never removes or overwrites an
existing cache entry. -/
lemma getKey_preserves_entry (lk : ListKeysResult) (cache : StorageKeyCache)
    (rg sa idx k : String) (h : cacheFind cache idx = some k) :
    cacheFind (getKeyForStorageAccount lk cache rg sa).cache idx = some k := by
  rcases getKey_cases lk cache rg sa with hc | ⟨-, -, hc, hnone⟩
  · rw [hc]; exact h
  · rw [hc]
    have hne : ((rg ++ "/" ++ sa : String) == idx) = false := by
      refine beq_eq_false_iff_ne.mpr ?_
      intro e
      rw [e, h] at hnone
      cases hnone
    simp only [cacheFind, List.find?] at h ⊢
    rw [hne]
    exact h

/-- C4: the storage-key cache grows monotonically: once a pair is mapped to a
key, that entry survives every later sequence of `getKeyForStorageAccount`
calls unchanged, and every later call for the same pair returns that same key
with `accountExists = true`, a nil error, and no cache change. -/
theorem storageKeyCache_monotone :
    ∀ (calls : List (ListKeysResult × String × String)) (cache : StorageKeyCache)
      (idx k : String),
      cacheFind cache idx = some k →
      cacheFind (runStorageKeyCalls cache calls) idx = some k ∧
      ∀ (lk : ListKeysResult) (rg sa : String), rg ++ "/" ++ sa = idx →
        getKeyForStorageAccount lk (runStorageKeyCalls cache calls) rg sa
          = ⟨runStorageKeyCalls cache calls, false, k, true, none⟩ := by
  intro calls
  induction calls with
  | nil =>
    intro cache idx k h
    refine ⟨h, ?_⟩
    intro lk rg sa hidx
    have hfind : cacheFind cache (rg ++ "/" ++ sa) = some k := by rw [hidx]; exact h
    simp [runStorageKeyCalls, getKeyForStorageAccount, hfind]
  | cons c rest ih =>
    intro cache idx k h
    obtain ⟨lk0, rg0, sa0⟩ := c
    simp only [runStorageKeyCalls]
    exact ih _ idx k (getKey_preserves_entry lk0 cache rg0 sa0 idx k h)

/-- C4 witness: an entry survives a later call for a different account and a
later call for the same account returns the original key. -/
theorem storageKeyCache_monotone_witness :
    cacheFind
        (runStorageKeyCalls [("rg/acct", "key1")] [(⟨none, true, none⟩, "rg2", "acct2")])
        "rg/acct"
      = some "key1" :=
  (storageKeyCache_monotone [(⟨none, true, none⟩, "rg2", "acct2")]
    [("rg/acct", "key1")] "rg/acct" "key1" (by decide)).1

/-- A failed `sliceContainsValue` check means the value is absent. -/
lemma not_mem_of_sliceContainsValue_false {acc : List String} {n : String}
    (h : sliceContainsValue acc n = false) : n ∉ acc := by
  intro hm
  have ht : sliceContainsValue acc n = true := by
    simp only [sliceContainsValue, List.any_eq_true]
    exact ⟨n, hm, by simp⟩
  rw [h] at ht
  cases ht

/-- A successful `sliceContainsValue` check means the value is present. -/
lemma mem_of_sliceContainsValue_true {acc : List String} {n : String}
    (h : sliceContainsValue acc n = true) : n ∈ acc := by
  simp only [sliceContainsValue, List.any_eq_true, beq_iff_eq] at h
  obtain ⟨x, hx, e⟩ := h
  exact e ▸ hx

/-- The extraction loop only ever appends: the accumulator is contained in
any successful result. -/
lemma extractVnetNamesLoop_subset :
    ∀ (ids acc ns : List String), extractVnetNamesLoop ids acc = .ok ns → acc ⊆ ns := by
  intro ids
  induction ids with
  | nil =>
    intro acc ns h
    simp only [extractVnetNamesLoop, Except.ok.injEq] at h
    subst h
    exact fun x hx => hx
  | cons id rest ih =>
    intro acc ns h
    simp only [extractVnetNamesLoop] at h
    cases hp : parseAzureResourceID id with
    | error e => rw [hp] at h; cases h
    | ok rid =>
      simp only [hp] at h
      by_cases hc : sliceContainsValue acc (rid.pathGet "virtualNetworks") = true
      · rw [if_pos hc] at h
        exact ih acc ns h
      · rw [if_neg hc] at h
        exact fun x hx => ih _ ns h (List.mem_append_left _ hx)

/-- The extraction loop preserves freedom from duplicates. -/
lemma extractVnetNamesLoop_nodup :
    ∀ (ids acc ns : List String), extractVnetNamesLoop ids acc = .ok ns →
      acc.Nodup → ns.Nodup := by
  intro ids
  induction ids with
  | nil =>
    intro acc ns h hacc
    simp only [extractVnetNamesLoop, Except.ok.injEq] at h
    subst h
    exact hacc
  | cons id rest ih =>
    intro acc ns h hacc
    simp only [extractVnetNamesLoop] at h
    cases hp : parseAzureResourceID id with
    | error e => rw [hp] at h; cases h
    | ok rid =>
      simp only [hp] at h
      by_cases hc : sliceContainsValue acc (rid.pathGet "virtualNetworks") = true
      · rw [if_pos hc] at h
        exact ih acc ns h hacc
      · rw [if_neg hc] at h
        refine ih _ ns h ?_
        have hnm : rid.pathGet "virtualNetworks" ∉ acc :=
          not_mem_of_sliceContainsValue_false (by rwa [Bool.not_eq_true] at hc)
        simp [List.nodup_append, hacc, hnm]

/-- Every input ID of a successful extraction parses, and its vnet name is in
the result. -/
lemma extractVnetNamesLoop_mem :
    ∀ (ids acc ns : List String), extractVnetNamesLoop ids acc = .ok ns →
      ∀ id ∈ ids, ∃ rid, parseAzureResourceID id = .ok rid ∧
        rid.pathGet "virtualNetworks" ∈ ns := by
  intro ids
  induction ids with
  | nil =>
    intro acc ns _ id hid
    cases hid
  | cons i rest ih =>
    intro acc ns h id hid
    simp only [extractVnetNamesLoop] at h
    cases hp : parseAzureResourceID i with
    | error e => rw [hp] at h; cases h
    | ok rid =>
      simp only [hp] at h
      rcases List.mem_cons.mp hid with heq | htail
      · subst heq
        refine ⟨rid, hp, ?_⟩
        by_cases hc : sliceContainsValue acc (rid.pathGet "virtualNetworks") = true
        · rw [if_pos hc] at h
          exact extractVnetNamesLoop_subset rest acc ns h (mem_of_sliceContainsValue_true hc)
        · rw [if_neg hc] at h
          exact extractVnetNamesLoop_subset rest _ ns h
            (List.mem_append_right _ (List.mem_singleton_self _))
      · by_cases hc : sliceContainsValue acc (rid.pathGet "virtualNetworks") = true
        · rw [if_pos hc] at h
          exact ih acc ns h id htail
        · rw [if_neg hc] at h
          exact ih _ ns h id htail

/-- The extraction loop errors exactly when some input ID fails to parse. -/
lemma extractVnetNamesLoop_error_iff :
    ∀ (ids acc : List String),
      (∃ e, extractVnetNamesLoop ids acc = .error e) ↔
      ∃ id ∈ ids, ∃ e, parseAzureResourceID id = .error e := by
  intro ids
  induction ids with
  | nil =>
    intro acc
    simp [extractVnetNamesLoop]
  | cons i rest ih =>
    intro acc
    cases hp : parseAzureResourceID i with
    | error e =>
      refine iff_of_true ⟨e, by simp [extractVnetNamesLoop, hp]⟩ ?_
      exact ⟨i, List.mem_cons_self _ _, e, hp⟩
    | ok rid =>
      constructor
      · intro he
        simp only [extractVnetNamesLoop, hp] at he
        by_cases hc : sliceContainsValue acc (rid.pathGet "virtualNetworks") = true
        · rw [if_pos hc] at he
          obtain ⟨id, hid, e, hpe⟩ := (ih acc).mp he
          exact ⟨id, List.mem_cons_of_mem _ hid, e, hpe⟩
        · rw [if_neg hc] at he
          obtain ⟨id, hid, e, hpe⟩ := (ih _).mp he
          exact ⟨id, List.mem_cons_of_mem _ hid, e, hpe⟩
      · rintro ⟨id, hid, e, hpe⟩
        rcases List.mem_cons.mp hid with heq | htail
        · subst heq
          rw [hp] at hpe
          cases hpe
        · simp only [extractVnetNamesLoop, hp]
          by_cases hc : sliceContainsValue acc (rid.pathGet "virtualNetworks") = true
          · rw [if_pos hc]
            exact (ih acc).mpr ⟨id, htail, e, hpe⟩
          · rw [if_neg hc]
            exact (ih _).mpr ⟨id, htail, e, hpe⟩

/-- C5: `extractVnetNames` returns the virtual-network names as a set — each
name appears at most once even when several IDs share it, and every input
ID's name is represented — and it returns an error exactly when some ID in
the list fails to parse as an Azure resource ID. -/
theorem extractVnetNames_spec :
    ∀ ids : List String,
      (∀ ns, extractVnetNames ids = .ok ns → ns.Nodup ∧
        ∀ id ∈ ids, ∃ rid, parseAzureResourceID id = .ok rid ∧
          rid.pathGet "virtualNetworks" ∈ ns) ∧
      ((∃ e, extractVnetNames ids = .error e) ↔
        ∃ id ∈ ids, ∃ e, parseAzureResourceID id = .error e) := by
  intro ids
  refine ⟨?_, extractVnetNamesLoop_error_iff ids []⟩
  intro ns h
  exact ⟨extractVnetNamesLoop_nodup ids [] ns h List.nodup_nil,
    extractVnetNamesLoop_mem ids [] ns h⟩

/-- C5 witness: two IDs naming the same virtual network extract to a
duplicate-free singleton. -/
theorem extractVnetNames_spec_witness :
    extractVnetNames
        ["/subscriptions/s/resourceGroups/g/providers/Microsoft.Network/virtualNetworks/vnetA",
          "/subscriptions/s/resourceGroups/g2/providers/Microsoft.Network/virtualNetworks/vnetA"]
      = .ok ["vnetA"] ∧
    List.Nodup ["vnetA"] :=
  ⟨by rfl,
    ((extractVnetNames_spec
        ["/subscriptions/s/resourceGroups/g/providers/Microsoft.Network/virtualNetworks/vnetA",
          "/subscriptions/s/resourceGroups/g2/providers/Microsoft.Network/virtualNetworks/vnetA"]).1
      ["vnetA"] (by rfl)).1⟩

/-- `acquiredLocks` distributes over trace concatenation. -/
lemma acquiredLocks_append (s t : List LockEvent) :
    acquiredLocks (s ++ t) = acquiredLocks s ++ acquiredLocks t := by
  simp [acquiredLocks, List.filterMap_append]

/-- `releasedLocks` distributes over trace concatenation. -/
lemma releasedLocks_append (s t : List LockEvent) :
    releasedLocks (s ++ t) = releasedLocks s ++ releasedLocks t := by
  simp [releasedLocks, List.filterMap_append]

/-- A multi-lock acquires exactly the names in slice order. -/
lemma acquiredLocks_lockMultiple (vs : List String) (r : String) :
    acquiredLocks (azureRMLockMultipleByName vs r) = vs.map (fun v => (v, r)) := by
  induction vs with
  | nil => rfl
  | cons v rest ih => simp_all [acquiredLocks, azureRMLockMultipleByName, List.filterMap_cons]

/-- A multi-unlock acquires nothing. -/
lemma acquiredLocks_unlockMultiple (vs : List String) (r : String) :
    acquiredLocks (azureRMUnlockMultipleByName vs r) = [] := by
  induction vs with
  | nil => rfl
  | cons v rest ih => simp_all [acquiredLocks, azureRMUnlockMultipleByName, List.filterMap_cons]

/-- A multi-lock releases nothing. -/
lemma releasedLocks_lockMultiple (vs : List String) (r : String) :
    releasedLocks (azureRMLockMultipleByName vs r) = [] := by
  induction vs with
  | nil => rfl
  | cons v rest ih => simp_all [releasedLocks, azureRMLockMultipleByName, List.filterMap_cons]

/-- A multi-unlock releases exactly the names in slice order. -/
lemma releasedLocks_unlockMultiple (vs : List String) (r : String) :
    releasedLocks (azureRMUnlockMultipleByName vs r) = vs.map (fun v => (v, r)) := by
  induction vs with
  | nil => rfl
  | cons v rest ih => simp_all [releasedLocks, azureRMUnlockMultipleByName, List.filterMap_cons]

/-- The lock pairs acquired by a full acquire-then-release sequence: the plan
name first, then each vnet name in slice order. -/
lemma acquiredLocks_ddosSeq (n : String) (vs : List String) :
    acquiredLocks (ddosAcquireSeq n vs ++ ddosReleaseSeq n vs) =
      (n, azureDDoSProtectionPlanResourceName) ::
        vs.map (fun v => (v, virtualNetworkResourceName)) := by
  rw [ddosAcquireSeq, ddosReleaseSeq, acquiredLocks_append, acquiredLocks_append,
    acquiredLocks_append, acquiredLocks_lockMultiple, acquiredLocks_unlockMultiple]
  simp [acquiredLocks, azureRMLockByName, azureRMUnlockByName]

/-- The lock pairs released by a full acquire-then-release sequence: the vnet
names in slice order, then the plan name (LIFO defer order). -/
lemma releasedLocks_ddosSeq (n : String) (vs : List String) :
    releasedLocks (ddosAcquireSeq n vs ++ ddosReleaseSeq n vs) =
      vs.map (fun v => (v, virtualNetworkResourceName)) ++
        [(n, azureDDoSProtectionPlanResourceName)] := by
  rw [ddosAcquireSeq, ddosReleaseSeq, releasedLocks_append, releasedLocks_append,
    releasedLocks_append, releasedLocks_lockMultiple, releasedLocks_unlockMultiple]
  simp [releasedLocks, azureRMLockByName, azureRMUnlockByName]

/-- A full acquire-then-release sequence is balanced: the multiset of
acquired locks equals the multiset of released locks. -/
lemma ddosSeq_balanced (n : String) (vs : List String) :
    (acquiredLocks (ddosAcquireSeq n vs ++ ddosReleaseSeq n vs) : Multiset (String × String)) =
      (releasedLocks (ddosAcquireSeq n vs ++ ddosReleaseSeq n vs) : Multiset (String × String)) := by
  rw [acquiredLocks_ddosSeq, releasedLocks_ddosSeq]
  exact (Multiset.coe_eq_coe.mpr (List.perm_append_singleton _ _)).symm

/-- The trace of the create/update body is empty (pre-lock early return) or a
full acquire-then-release sequence for the plan name and extracted vnets. -/
lemma ddosCreateUpdateBody_trace (env : DdosEnv) (d : DdosState) :
    (ddosCreateUpdateBody env d).2.2 = [] ∨
    ∃ vs, extractVnetNames d.virtualNetworkIds = .ok vs ∧
      (ddosCreateUpdateBody env d).2.2 =
        ddosAcquireSeq d.name vs ++ ddosReleaseSeq d.name vs := by
  cases hv : extractVnetNames d.virtualNetworkIds with
  | error e => left; simp [ddosCreateUpdateBody, hv]
  | ok vs =>
    right
    refine ⟨vs, rfl, ?_⟩
    simp only [ddosCreateUpdateBody, hv]
    repeat' split
    all_goals rfl

/-- The trace of `resourceArmDDoSProtectionPlanCreateUpdate` is the body's
trace or empty (import-check early return). -/
lemma ddosCreateUpdate_trace (env : DdosEnv) (d : DdosState) :
    (resourceArmDDoSProtectionPlanCreateUpdate env d).2.2 = (ddosCreateUpdateBody env d).2.2 ∨
    (resourceArmDDoSProtectionPlanCreateUpdate env d).2.2 = [] := by
  simp only [resourceArmDDoSProtectionPlanCreateUpdate]
  repeat' split
  all_goals first
  | left; rfl
  | right; rfl

/-- The trace of `resourceArmDDoSProtectionPlanDelete` is empty (pre-lock
early return) or a full acquire-then-release sequence for the plan name
parsed from the resource ID and the extracted vnets. -/
lemma ddosDelete_trace (env : DdosEnv) (d : DdosState) :
    (resourceArmDDoSProtectionPlanDelete env d).2.2 = [] ∨
    ∃ rid vs, parseAzureResourceID d.id = .ok rid ∧
      extractVnetNames d.virtualNetworkIds = .ok vs ∧
      (resourceArmDDoSProtectionPlanDelete env d).2.2 =
        ddosAcquireSeq (rid.pathGet "ddosProtectionPlans") vs ++
          ddosReleaseSeq (rid.pathGet "ddosProtectionPlans") vs := by
  cases hp : parseAzureResourceID d.id with
  | error e => left; simp [resourceArmDDoSProtectionPlanDelete, hp]
  | ok rid =>
    cases hv : extractVnetNames d.virtualNetworkIds with
    | error e =>
      left
      simp only [resourceArmDDoSProtectionPlanDelete, hp, hv]
      repeat' split
      all_goals rfl
    | ok vs =>
      by_cases hr : env.getForDelete.err.isSome = true
      · left
        simp only [resourceArmDDoSProtectionPlanDelete, hp, hv, hr]
        repeat' split
        all_goals first
        | rfl
        | simp_all
      · right
        refine ⟨rid, vs, rfl, rfl, ?_⟩
        rw [Bool.not_eq_true] at hr
        simp only [resourceArmDDoSProtectionPlanDelete, hp, hv, hr]
        repeat' split
        all_goals first
        | rfl
        | simp_all

/-- C1: every execution of `resourceArmDDoSProtectionPlanCreateUpdate` and
`resourceArmDDoSProtectionPlanDelete` releases every named lock it acquired
(the plan's own name under the DDoS resource name and each vnet name under
the virtual-network resource name) by the time it returns, on every exit
path, whether it returns nil or an error: the multisets of acquired and
released locks in the trace coincide. -/
theorem ddos_locks_released :
    ∀ (env : DdosEnv) (d : DdosState),
      ((acquiredLocks (resourceArmDDoSProtectionPlanCreateUpdate env d).2.2 :
          Multiset (String × String)) =
        (releasedLocks (resourceArmDDoSProtectionPlanCreateUpdate env d).2.2 :
          Multiset (String × String))) ∧
      ((acquiredLocks (resourceArmDDoSProtectionPlanDelete env d).2.2 :
          Multiset (String × String)) =
        (releasedLocks (resourceArmDDoSProtectionPlanDelete env d).2.2 :
          Multiset (String × String))) := by
  intro env d
  constructor
  · rcases ddosCreateUpdate_trace env d with h | h
    · rw [h]
      rcases ddosCreateUpdateBody_trace env d with h2 | ⟨vs, -, h2⟩
      · rw [h2]; rfl
      · rw [h2]; exact ddosSeq_balanced d.name vs
    · rw [h]; rfl
  · rcases ddosDelete_trace env d with h | ⟨rid, vs, -, -, h⟩
    · rw [h]; rfl
    · rw [h]; exact ddosSeq_balanced _ vs

/-- C2 counterexample: two states whose `virtual_network_ids` contain the
same set of virtual-network names but in different orders make the create
function acquire the locks in different orders: the lock sequence follows the
order of appearance in state, not a canonical order of the name set. -/
theorem ddos_lock_order_counterexample :
    extractVnetNames
        ["/subscriptions/s/resourceGroups/g/providers/Microsoft.Network/virtualNetworks/vnetA",
          "/subscriptions/s/resourceGroups/g/providers/Microsoft.Network/virtualNetworks/vnetB"]
      = .ok ["vnetA", "vnetB"] ∧
    extractVnetNames
        ["/subscriptions/s/resourceGroups/g/providers/Microsoft.Network/virtualNetworks/vnetB",
          "/subscriptions/s/resourceGroups/g/providers/Microsoft.Network/virtualNetworks/vnetA"]
      = .ok ["vnetB", "vnetA"] ∧
    (["vnetA", "vnetB"] : List String).toFinset = (["vnetB", "vnetA"] : List String).toFinset ∧
    acquiredLocks
        (resourceArmDDoSProtectionPlanCreateUpdate
          ⟨false, false, ⟨none, false, none, none, none, none, []⟩, some "remote error", none,
            ⟨none, false, none, none, none, none, []⟩, ⟨none, false, none, none, none, none, []⟩,
            ⟨none, false, none, none, none, none, []⟩, none, none⟩
          ⟨"", "plan1", "rg", "loc", [],
            ["/subscriptions/s/resourceGroups/g/providers/Microsoft.Network/virtualNetworks/vnetA",
              "/subscriptions/s/resourceGroups/g/providers/Microsoft.Network/virtualNetworks/vnetB"]⟩).2.2
      ≠
      acquiredLocks
        (resourceArmDDoSProtectionPlanCreateUpdate
          ⟨false, false, ⟨none, false, none, none, none, none, []⟩, some "remote error", none,
            ⟨none, false, none, none, none, none, []⟩, ⟨none, false, none, none, none, none, []⟩,
            ⟨none, false, none, none, none, none, []⟩, none, none⟩
          ⟨"", "plan1", "rg", "loc", [],
            ["/subscriptions/s/resourceGroups/g/providers/Microsoft.Network/virtualNetworks/vnetB",
              "/subscriptions/s/resourceGroups/g/providers/Microsoft.Network/virtualNetworks/vnetA"]⟩).2.2 :=
  ⟨by rfl, by rfl, by decide, by decide⟩

/-- C2 amended: each mutation acquires named locks for the plan itself and
then for the referenced virtual networks, in a deterministic order — the
order of first appearance of each name in `virtual_network_ids` with
duplicates removed (so states with the same ID list lock identically), not a
canonical order of the name set — unless it returns before locking, in which
case it acquires nothing. -/
theorem ddos_lock_acquisition_order :
    ∀ (env : DdosEnv) (d : DdosState) (vs : List String) (rid : ResourceID),
      extractVnetNames d.virtualNetworkIds = .ok vs →
      parseAzureResourceID d.id = .ok rid →
      (acquiredLocks (resourceArmDDoSProtectionPlanCreateUpdate env d).2.2 = [] ∨
        acquiredLocks (resourceArmDDoSProtectionPlanCreateUpdate env d).2.2 =
          (d.name, azureDDoSProtectionPlanResourceName) ::
            vs.map (fun v => (v, virtualNetworkResourceName))) ∧
      (acquiredLocks (resourceArmDDoSProtectionPlanDelete env d).2.2 = [] ∨
        acquiredLocks (resourceArmDDoSProtectionPlanDelete env d).2.2 =
          (rid.pathGet "ddosProtectionPlans", azureDDoSProtectionPlanResourceName) ::
            vs.map (fun v => (v, virtualNetworkResourceName))) := by
  intro env d vs rid hv hp
  constructor
  · rcases ddosCreateUpdate_trace env d with h | h
    · rcases ddosCreateUpdateBody_trace env d with h2 | ⟨vs2, hv2, h2⟩
      · left; rw [h, h2]; rfl
      · right
        rw [hv] at hv2
        cases hv2
        rw [h, h2]
        exact acquiredLocks_ddosSeq d.name vs
    · left; rw [h]; rfl
  · rcases ddosDelete_trace env d with h | ⟨rid2, vs2, hp2, hv2, h⟩
    · left; rw [h]; rfl
    · right
      rw [hv] at hv2
      cases hv2
      rw [hp] at hp2
      cases hp2
      rw [h]
      exact acquiredLocks_ddosSeq _ vs

/-- C2 amended witness: a concrete create/update acquires exactly the plan
lock followed by the vnet locks in state order. -/
theorem ddos_lock_acquisition_order_witness :
    acquiredLocks
        (resourceArmDDoSProtectionPlanCreateUpdate
          ⟨false, false, ⟨none, false, none, none, none, none, []⟩, some "remote error", none,
            ⟨none, false, none, none, none, none, []⟩, ⟨none, false, none, none, none, none, []⟩,
            ⟨none, false, none, none, none, none, []⟩, none, none⟩
          ⟨"/subscriptions/s/resourceGroups/g/providers/Microsoft.Network/ddosProtectionPlans/plan1",
            "plan1", "rg", "loc", [],
            ["/subscriptions/s/resourceGroups/g/providers/Microsoft.Network/virtualNetworks/vnetA",
              "/subscriptions/s/resourceGroups/g/providers/Microsoft.Network/virtualNetworks/vnetB"]⟩).2.2
      = [] ∨
    acquiredLocks
        (resourceArmDDoSProtectionPlanCreateUpdate
          ⟨false, false, ⟨none, false, none, none, none, none, []⟩, some "remote error", none,
            ⟨none, false, none, none, none, none, []⟩, ⟨none, false, none, none, none, none, []⟩,
            ⟨none, false, none, none, none, none, []⟩, none, none⟩
          ⟨"/subscriptions/s/resourceGroups/g/providers/Microsoft.Network/ddosProtectionPlans/plan1",
            "plan1", "rg", "loc", [],
            ["/subscriptions/s/resourceGroups/g/providers/Microsoft.Network/virtualNetworks/vnetA",
              "/subscriptions/s/resourceGroups/g/providers/Microsoft.Network/virtualNetworks/vnetB"]⟩).2.2
      = [("plan1", azureDDoSProtectionPlanResourceName),
          ("vnetA", virtualNetworkResourceName), ("vnetB", virtualNetworkResourceName)] :=
  (ddos_lock_acquisition_order
    ⟨false, false, ⟨none, false, none, none, none, none, []⟩, some "remote error", none,
      ⟨none, false, none, none, none, none, []⟩, ⟨none, false, none, none, none, none, []⟩,
      ⟨none, false, none, none, none, none, []⟩, none, none⟩
    ⟨"/subscriptions/s/resourceGroups/g/providers/Microsoft.Network/ddosProtectionPlans/plan1",
      "plan1", "rg", "loc", [],
      ["/subscriptions/s/resourceGroups/g/providers/Microsoft.Network/virtualNetworks/vnetA",
        "/subscriptions/s/resourceGroups/g/providers/Microsoft.Network/virtualNetworks/vnetB"]⟩
    ["vnetA", "vnetB"]
    ⟨"g", [("subscriptions", "s"), ("resourceGroups", "g"),
      ("providers", "Microsoft.Network"), ("ddosProtectionPlans", "plan1")]⟩
    (by rfl) (by rfl)).1

/-- C10: when the remote `Get` of `resourceArmDDoSProtectionPlanRead` reports
the plan as not found, the function clears the resource ID and returns nil;
a `Get` failure that is not a not-found response yields a non-nil error; and
any non-nil error return of the function came from such a non-not-found `Get`
failure. -/
theorem ddosRead_not_found_handling :
    ∀ (get : AzGetPlanResult) (d : DdosState) (rid : ResourceID),
      parseAzureResourceID d.id = .ok rid →
      (get.err.isSome = true → get.notFound = true →
        resourceArmDDoSProtectionPlanRead get d = ({ d with id := "" }, none)) ∧
      (get.err.isSome = true → get.notFound = false →
        (resourceArmDDoSProtectionPlanRead get d).2.isSome = true) ∧
      ((resourceArmDDoSProtectionPlanRead get d).2.isSome = true →
        get.err.isSome = true ∧ get.notFound = false) := by
  intro get d rid hp
  refine ⟨?_, ?_, ?_⟩
  · intro he hnf
    simp [resourceArmDDoSProtectionPlanRead, hp, he, hnf]
  · intro he hnf
    simp [resourceArmDDoSProtectionPlanRead, hp, he, hnf]
  · intro hs
    by_cases he : get.err.isSome = true
    · by_cases hnf : get.notFound = true
      · exfalso
        simp [resourceArmDDoSProtectionPlanRead, hp, he, hnf] at hs
      · exact ⟨he, by rwa [Bool.not_eq_true] at hnf⟩
    · exfalso
      rw [Bool.not_eq_true] at he
      simp [resourceArmDDoSProtectionPlanRead, hp, he] at hs

/-- C10 witness: a concrete read whose `Get` reports not-found clears the ID
and returns nil. -/
theorem ddosRead_not_found_handling_witness :
    resourceArmDDoSProtectionPlanRead ⟨some "404", true, none, none, none, none, []⟩
        ⟨"/subscriptions/s/resourceGroups/g/providers/Microsoft.Network/ddosProtectionPlans/plan1",
          "plan1", "rg", "loc", [], []⟩
      = (⟨"", "plan1", "rg", "loc", [], []⟩, none) :=
  (ddosRead_not_found_handling ⟨some "404", true, none, none, none, none, []⟩
    ⟨"/subscriptions/s/resourceGroups/g/providers/Microsoft.Network/ddosProtectionPlans/plan1",
      "plan1", "rg", "loc", [], []⟩
    ⟨"g", [("subscriptions", "s"), ("resourceGroups", "g"),
      ("providers", "Microsoft.Network"), ("ddosProtectionPlans", "plan1")]⟩
    (by rfl)).1 rfl rfl

end Spec2Proof
